import Mathlib

/-!
Shallow embedding of `src/server.js` (GUVI Agentic Honeypot API).

The embedding models the `/analyze` turn handler and its collaborators:
the in-memory session store (a JS `Map`, embedded as an association list),
the intelligence merger `mergeIntel`, the final-callback dispatcher
`sendFinalCallback`, and the per-turn orchestration of `app.post("/analyze")`.

JS values that may be `undefined` are embedded as `Option`; JS string
truthiness (`!s` is true for `undefined` and `""`) is `truthyStr`.
The Gemini call and the outbound `fetch` are external collaborators: their
outcomes enter the handler as parameters (`ClassifierOutcome`, `notifierOk`),
as does the wall clock (`now`, for `new Date().toISOString()`).
A JS `TypeError` thrown mid-handler (e.g. spreading `undefined` inside
`mergeIntel`) is embedded by the corresponding `Option` being `none`; the
handler then takes the `catch` branch (HTTP 500) with all mutations made
before the throw retained, exactly as the shared mutable `session` object
retains them in the source.
-/

set_option maxHeartbeats 1000000

/-- A conversation message: `{ sender, text, timestamp? }`; any field may be
absent on an externally supplied message. -/
structure Message where
  sender : Option String
  text : Option String
  timestamp : Option String
deriving Repr, DecidableEq

/-- An intelligence snapshot with all five fields present, as created by the
session initializer (lines 107-113) and returned by `mergeIntel`. -/
structure Intelligence where
  bankAccounts : List String
  upiIds : List String
  phishingLinks : List String
  phoneNumbers : List String
  suspiciousKeywords : List String
deriving Repr, DecidableEq

/-- An intelligence snapshot as it arrives from the outside (the parsed
classifier JSON): any of the five fields may be absent (`undefined`). -/
structure RawIntel where
  bankAccounts : Option (List String)
  upiIds : Option (List String)
  phishingLinks : Option (List String)
  phoneNumbers : Option (List String)
  suspiciousKeywords : Option (List String)
deriving Repr, DecidableEq

/-- View a full snapshot as a raw one (every field present). -/
def Intelligence.raw (i : Intelligence) : RawIntel :=
  ⟨some i.bankAccounts, some i.upiIds, some i.phishingLinks,
    some i.phoneNumbers, some i.suspiciousKeywords⟩

/-- `[...new Set(l)]`: deduplicate a list keeping the first occurrence of
each element, preserving first-seen order (JS `Set` iteration order).
The head survives and every later duplicate of it is filtered out. -/
def setDedup : List String → List String
  | [] => []
  | a :: l => a :: (setDedup l).filter (fun x => x ≠ a)

/-- `mergeIntel(oldI, newI)` (lines 50-60): each field is
`[...new Set([...oldI.f, ...newI.f])]`.  Spreading an absent field throws a
`TypeError`, embedded as `none`; field accesses happen in source order. -/
def mergeIntel (oldI newI : RawIntel) : Option Intelligence := do
  let ba ← oldI.bankAccounts
  let ba' ← newI.bankAccounts
  let up ← oldI.upiIds
  let up' ← newI.upiIds
  let ph ← oldI.phishingLinks
  let ph' ← newI.phishingLinks
  let pn ← oldI.phoneNumbers
  let pn' ← newI.phoneNumbers
  let sk ← oldI.suspiciousKeywords
  let sk' ← newI.suspiciousKeywords
  pure ⟨setDedup (ba ++ ba'), setDedup (up ++ up'), setDedup (ph ++ ph'),
    setDedup (pn ++ pn'), setDedup (sk ++ sk')⟩

/-- All five fields of a raw snapshot are present (`mergeIntel` succeeds
exactly when this holds of both arguments). -/
def RawIntel.allPresent (i : RawIntel) : Bool :=
  i.bankAccounts.isSome && i.upiIds.isSome && i.phishingLinks.isSome &&
    i.phoneNumbers.isSome && i.suspiciousKeywords.isSome

/-- The classifier result as parsed from the model's JSON: any field may be
absent, `extractJSON` only checks JSON well-formedness, not the shape. -/
structure ClassifierResult where
  scamDetected : Option Bool
  agentReply : Option String
  extractedIntelligence : Option RawIntel
  agentNotes : Option String
deriving Repr, DecidableEq

/-- Outcome of `ai.models.generateContent` + `extractJSON` (lines 152-157):
the call itself may reject, `JSON.parse` may throw on the fence-stripped
text, or a `ClassifierResult` (of arbitrary shape) is produced. -/
inductive ClassifierOutcome where
  | callError
  | parseError
  | parsed (r : ClassifierResult)
deriving Repr, DecidableEq

/-- Per-session state (lines 103-116).  `agentNotes` is `Option String`
because line 164 assigns `result.agentNotes` verbatim, which may be
`undefined`. -/
structure Session where
  sessionId : String
  history : List Message
  scamDetected : Bool
  intelligence : Intelligence
  agentNotes : Option String
  finalCallbackSent : Bool
deriving Repr, DecidableEq

/-- The intelligence snapshot a fresh session starts with (lines 107-113). -/
def emptyIntel : Intelligence := ⟨[], [], [], [], []⟩

/-- A fresh session for an unseen `sessionId` (lines 103-116), seeded from
the supplied `conversationHistory`. -/
def freshSession (sid : String) (hist : List Message) : Session :=
  { sessionId := sid
    history := hist
    scamDetected := false
    intelligence := emptyIntel
    agentNotes := some ""
    finalCallbackSent := false }

/-- The in-memory session store `const sessions = new Map()`, embedded as an
association list keyed by session id. -/
abbrev Store := List (String × Session)

/-- `sessions.get(sessionId)`. -/
def Store.get : Store → String → Option Session
  | [], _ => none
  | (k, s) :: rest, k' => if k = k' then some s else Store.get rest k'

/-- `sessions.set(sessionId, session)`; also models in-place mutation of the
session object already stored under that key. -/
def Store.set : Store → String → Session → Store
  | [], k, s => [(k, s)]
  | (k', s') :: rest, k, s =>
      if k' = k then (k, s) :: rest else (k', s') :: Store.set rest k s

/-- The request body of `POST /analyze` (line 94): `sessionId`, `message`
and `conversationHistory` may each be absent; `metadata` is unused. -/
structure AnalyzeRequest where
  sessionId : Option String
  message : Option Message
  conversationHistory : Option (List Message)
deriving Repr, DecidableEq

/-- JS truthiness of a string-or-undefined value: `undefined` and `""` are
falsy, every other string is truthy. -/
def truthyStr : Option String → Bool
  | none => false
  | some s => !s.isEmpty

/-- The HTTP response of one turn: `{status:"success", reply}` (200),
`{error:"Invalid request format"}` (400), or
`{error:"Internal server error"}` (500). -/
inductive TurnResponse where
  | ok (reply : Option String)
  | invalid
  | serverError
deriving Repr, DecidableEq

/-- What one `/analyze` turn produced: the store afterwards, the HTTP
response, and whether `sendFinalCallback` was invoked during the turn. -/
structure TurnResult where
  store : Store
  response : TurnResponse
  notifierCalled : Bool
deriving Repr, DecidableEq

/-- One turn of `app.post("/analyze")` (lines 92-193).

* Validation (96-98): `!sessionId || !message?.text || !message?.sender`
  returns 400 with the store untouched.
* Session resolution (100-118): get-or-create, seeding history from
  `conversationHistory` only on creation.
* Line 120 appends the inbound message (this mutation survives every
  later failure).
* A classifier call/parse failure (152-157) lands in the catch (189-192):
  HTTP 500, no further mutation.
* Line 159: `session.scamDetected ||= result.scamDetected` (absent is
  falsy).  Lines 160-163: `mergeIntel`; if `result.extractedIntelligence`
  is absent or misses a field, `mergeIntel` throws — the turn dies with
  500 but the line-159 update is kept.  Line 164 overwrites `agentNotes`
  verbatim; lines 167-171 push the reply `{sender:"user", text:
  result.agentReply, timestamp: now}`.
* Lines 178-180: if `scamDetected && !finalCallbackSent`, invoke
  `sendFinalCallback` (65-87), which sets `finalCallbackSent = true` only
  when the `fetch` resolves (`notifierOk`); a rejection is swallowed.
* Lines 185-188: HTTP 200 with `reply: result.agentReply`. -/
def handleTurn (store : Store) (req : AnalyzeRequest) (outcome : ClassifierOutcome)
    (notifierOk : Bool) (now : String) : TurnResult :=
  match req.sessionId, req.message with
  | some sid, some m =>
    if sid.isEmpty || !truthyStr m.text || !truthyStr m.sender then
      ⟨store, .invalid, false⟩
    else
      let s0 := match Store.get store sid with
        | some s => s
        | none => freshSession sid ((req.conversationHistory).getD [])
      let s1 : Session := { s0 with history := s0.history ++ [m] }
      match outcome with
      | .callError => ⟨Store.set store sid s1, .serverError, false⟩
      | .parseError => ⟨Store.set store sid s1, .serverError, false⟩
      | .parsed r =>
        let s2 : Session :=
          { s1 with scamDetected := s1.scamDetected || r.scamDetected.getD false }
        match r.extractedIntelligence with
        | none => ⟨Store.set store sid s2, .serverError, false⟩
        | some ri =>
          match mergeIntel s2.intelligence.raw ri with
          | none => ⟨Store.set store sid s2, .serverError, false⟩
          | some intel =>
            let s3 : Session :=
              { s2 with intelligence := intel
                        agentNotes := r.agentNotes
                        history := s2.history ++
                          [⟨some "user", r.agentReply, some now⟩] }
            if s3.scamDetected && !s3.finalCallbackSent then
              if notifierOk then
                ⟨Store.set store sid { s3 with finalCallbackSent := true },
                  .ok r.agentReply, true⟩
              else
                ⟨Store.set store sid s3, .ok r.agentReply, true⟩
            else
              ⟨Store.set store sid s3, .ok r.agentReply, false⟩
  | _, _ => ⟨store, .invalid, false⟩

/-- The external inputs of one turn: the request plus the collaborator
outcomes (classifier, notifier) and the clock reading for that turn. -/
structure TurnInput where
  req : AnalyzeRequest
  outcome : ClassifierOutcome
  notifierOk : Bool
  now : String

/-- Process a sequence of turns against the store, in order. -/
def runTurns (store : Store) (ts : List TurnInput) : Store :=
  ts.foldl (fun st t => (handleTurn st t.req t.outcome t.notifierOk t.now).store) store

/- Concrete fixtures used by witnesses and counterexamples. -/

/-- A raw snapshot with all five fields present and empty. -/
def emptyRaw : RawIntel := ⟨some [], some [], some [], some [], some []⟩

/-- A concrete inbound message. -/
def exMsg : Message := ⟨some "scammer", some "hi", none⟩

/-- A concrete valid request for session `"s1"`. -/
def exReq : AnalyzeRequest := ⟨some "s1", some exMsg, none⟩

/-- A concrete well-shaped classifier result flagging a scam. -/
def exScamResult : ClassifierResult := ⟨some true, some "ok", some emptyRaw, some "n"⟩

/-- A concrete well-shaped classifier result not flagging a scam. -/
def exCalmResult : ClassifierResult := ⟨some false, some "ok", some emptyRaw, some "n"⟩

/-- A concrete well-shaped classifier result whose `agentNotes` is absent. -/
def exNoNotesResult : ClassifierResult := ⟨some false, some "ok", some emptyRaw, none⟩

/-- A concrete inbound message whose external sender is the string `"user"`. -/
def exUserMsg : Message := ⟨some "user", some "hi", none⟩

/-- A concrete valid request whose inbound sender is `"user"`. -/
def exUserReq : AnalyzeRequest := ⟨some "s1", some exUserMsg, none⟩

/-- A stored session for `"s1"` already flagged as a scam. -/
def exScamSession : Session := { freshSession "s1" [] with scamDetected := true }

/-- A classifier result that is valid JSON but not a valid Classifier Result:
`extractedIntelligence` is absent, so `mergeIntel` throws mid-turn. -/
def exBadShapeResult : ClassifierResult := ⟨some true, some "ok", none, some "n"⟩

/-- Membership is preserved by `setDedup` (a JS `Set` holds exactly the elements
of the iterable it was built from). -/
theorem mem_setDedup {x : String} : ∀ {l : List String}, x ∈ setDedup l ↔ x ∈ l := by
  intro l
  induction l with
  | nil => simp [setDedup]
  | cons a l ih =>
    simp only [setDedup, List.mem_cons, List.mem_filter, decide_eq_true_eq]
    constructor
    · rintro (rfl | ⟨hx, _⟩)
      · exact Or.inl rfl
      · exact Or.inr (ih.mp hx)
    · rintro (rfl | hx)
      · exact Or.inl rfl
      · by_cases hxa : x = a
        · exact Or.inl hxa
        · exact Or.inr ⟨ih.mpr hx, hxa⟩

/-- `setDedup` never produces duplicates (a JS `Set` holds each value once). -/
theorem nodup_setDedup : ∀ (l : List String), (setDedup l).Nodup := by
  intro l
  induction l with
  | nil => simp [setDedup]
  | cons a l ih =>
    simp only [setDedup, List.nodup_cons]
    refine ⟨fun h => ?_, List.Nodup.filter _ ih⟩
    have := (List.mem_filter.mp h).2
    simp at this

/-- Deduplication commutes with filtering. -/
theorem setDedup_filter (p : String → Bool) :
    ∀ (l : List String), (setDedup l).filter p = setDedup (l.filter p) := by
  intro l
  induction l with
  | nil => simp [setDedup]
  | cons a l ih =>
    by_cases hpa : p a = true
    · rw [setDedup, List.filter_cons_of_pos hpa, List.filter_cons_of_pos hpa, setDedup,
        ← ih, List.filter_filter, List.filter_filter]
      congr 1
      exact List.filter_congr fun x _ => Bool.and_comm _ _
    · rw [setDedup, List.filter_cons_of_neg hpa, List.filter_cons_of_neg hpa, ← ih,
        List.filter_filter]
      apply List.filter_congr
      intro x _
      by_cases hxa : x = a
      · subst hxa
        simp [hpa]
      · simp [hxa]

/-- Appending only already-present elements to a duplicate-free list is a no-op
under `setDedup`. -/
theorem setDedup_append_of_subset :
    ∀ (d b : List String), d.Nodup → (∀ x ∈ b, x ∈ d) → setDedup (d ++ b) = d := by
  intro d
  induction d with
  | nil =>
    intro b _ hsub
    have hb : b = [] := List.eq_nil_iff_forall_not_mem.mpr (fun x hx => by simpa using hsub x hx)
    subst hb
    rfl
  | cons a d ih =>
    intro b hnd hsub
    have hnda : a ∉ d := (List.nodup_cons.mp hnd).1
    have hndd : d.Nodup := (List.nodup_cons.mp hnd).2
    rw [List.cons_append, setDedup, setDedup_filter, List.filter_append]
    have hd : d.filter (fun x => x ≠ a) = d := by
      apply List.filter_eq_self.mpr
      intro x hx
      simp only [decide_eq_true_eq]
      intro hxa
      exact hnda (hxa ▸ hx)
    rw [hd, ih (b.filter (fun x => x ≠ a)) hndd]
    intro x hx
    have hxb := List.mem_filter.mp hx
    have hxd := hsub x hxb.1
    rcases List.mem_cons.mp hxd with rfl | hxd
    · simp at hxb
    · exact hxd

/-- On two full snapshots `mergeIntel` succeeds and each field is the
deduplicated concatenation of the corresponding inputs. -/
theorem mergeIntel_raw (A B : Intelligence) :
    mergeIntel A.raw B.raw = some
      ⟨setDedup (A.bankAccounts ++ B.bankAccounts),
        setDedup (A.upiIds ++ B.upiIds),
        setDedup (A.phishingLinks ++ B.phishingLinks),
        setDedup (A.phoneNumbers ++ B.phoneNumbers),
        setDedup (A.suspiciousKeywords ++ B.suspiciousKeywords)⟩ := rfl

/-- C2 (amended): `mergeIntel` is total exactly on snapshot pairs with all five
fields present on both sides; an absent field on either side makes it throw
(`none`), rather than being treated as an empty set. -/
theorem mergeIntel_isSome_iff (a b : RawIntel) :
    (mergeIntel a b).isSome = (a.allPresent && b.allPresent) := by
  obtain ⟨ba, up, ph, pn, sk⟩ := a
  obtain ⟨ba', up', ph', pn', sk'⟩ := b
  cases ba <;> cases ba' <;> cases up <;> cases up' <;> cases ph <;> cases ph' <;>
    cases pn <;> cases pn' <;> cases sk <;> cases sk' <;>
      rfl

/-- Reading the key just written returns the written session. -/
theorem Store.get_set_self (st : Store) (k : String) (s : Session) :
    Store.get (Store.set st k s) k = some s := by
  induction st with
  | nil => simp [Store.set, Store.get]
  | cons p rest ih =>
    obtain ⟨k', s'⟩ := p
    by_cases h : k' = k <;> simp [Store.set, Store.get, h, ih]

/-- Writing one key leaves every other key unchanged. -/
theorem Store.get_set_ne (st : Store) (k k' : String) (s : Session) (h : k' ≠ k) :
    Store.get (Store.set st k s) k' = Store.get st k' := by
  induction st with
  | nil =>
    simp only [Store.set, Store.get]
    rw [if_neg (fun hh => h hh.symm)]
  | cons p rest ih =>
    obtain ⟨k0, s0⟩ := p
    by_cases h0 : k0 = k
    · subst h0
      simp only [Store.set, if_pos rfl, Store.get]
      rw [if_neg (fun hh => h hh.symm), if_neg (fun hh => h hh.symm)]
    · simp only [Store.set, if_neg h0, Store.get]
      by_cases h1 : k0 = k'
      · rw [if_pos h1, if_pos h1]
      · rw [if_neg h1, if_neg h1, ih]

/-- C6: a turn with `sessionId`, `message.text`, or `message.sender` absent is
rejected with a validation failure (HTTP 400, distinct from the processing
failure 500) and the session store is completely unchanged. -/
theorem validation_rejects_missing_fields (st : Store) (req : AnalyzeRequest) (oc : ClassifierOutcome)
    (nOk : Bool) (now : String)
    (h : req.sessionId = none ∨ req.message.bind Message.text = none ∨
      req.message.bind Message.sender = none) :
    handleTurn st req oc nOk now = ⟨st, .invalid, false⟩ := by
  unfold handleTurn
  cases hsid : req.sessionId with
  | none => cases req.message <;> rfl
  | some sid =>
    cases hmsg : req.message with
    | none => rfl
    | some m =>
      rw [hsid, hmsg] at h
      simp only [Option.some_bind] at h
      rcases h with h | h | h
      · exact absurd h (by simp)
      · simp [truthyStr, h]
      · simp [truthyStr, h]

/-- C10: a turn in which `sessionId`, `message.text`, or `message.sender` is
present but the empty string is likewise rejected with a validation failure
and an unchanged store — JS truthiness rejects `""` as well as `undefined`. -/
theorem validation_rejects_empty_fields (st : Store) (req : AnalyzeRequest) (oc : ClassifierOutcome)
    (nOk : Bool) (now : String)
    (h : req.sessionId = some "" ∨ req.message.bind Message.text = some "" ∨
      req.message.bind Message.sender = some "") :
    handleTurn st req oc nOk now = ⟨st, .invalid, false⟩ := by
  unfold handleTurn
  cases hsid : req.sessionId with
  | none => cases req.message <;> rfl
  | some sid =>
    cases hmsg : req.message with
    | none => rfl
    | some m =>
      rw [hsid, hmsg] at h
      simp only [Option.some_bind, Option.some.injEq] at h
      rcases h with h | h | h
      · subst h
        simp [show ("" : String).isEmpty = true from rfl]
      · simp [truthyStr, h, show ("" : String).isEmpty = true from rfl]
      · simp [truthyStr, h, show ("" : String).isEmpty = true from rfl]


/-- One turn never clears `scamDetected` or `finalCallbackSent` of any stored
session, and never sets `finalCallbackSent` when the Notifier call fails. -/
theorem handleTurn_mono_at (st : Store) (req : AnalyzeRequest) (oc : ClassifierOutcome)
    (nOk : Bool) (now : String) (sid : String) (s : Session)
    (hget : Store.get st sid = some s) :
    ∃ s', Store.get (handleTurn st req oc nOk now).store sid = some s' ∧
      (s.scamDetected = true → s'.scamDetected = true) ∧
      (s.finalCallbackSent = true → s'.finalCallbackSent = true) ∧
      (nOk = false → s'.finalCallbackSent = s.finalCallbackSent) := by
  unfold handleTurn
  cases hsid : req.sessionId with
  | none => cases req.message <;> exact ⟨s, hget, fun h => h, fun h => h, fun _ => rfl⟩
  | some sid' =>
    cases hmsg : req.message with
    | none => exact ⟨s, hget, fun h => h, fun h => h, fun _ => rfl⟩
    | some m =>
      dsimp only
      by_cases hval : (sid'.isEmpty || !truthyStr m.text || !truthyStr m.sender) = true
      · rw [if_pos hval]
        exact ⟨s, hget, fun h => h, fun h => h, fun _ => rfl⟩
      · rw [if_neg hval]
        by_cases hk : sid' = sid
        · subst hk
          rw [hget]
          repeat' split
          all_goals
            refine ⟨_, Store.get_set_self st sid' _, fun h => ?_, fun h => ?_, fun h => ?_⟩ <;>
              simp_all
        · have hne : sid ≠ sid' := fun hh => hk hh.symm
          repeat' split
          all_goals exact ⟨s, by rw [Store.get_set_ne st sid' sid _ hne]; exact hget,
            fun h => h, fun h => h, fun _ => rfl⟩

/-- A request without `sessionId` is rejected with the store untouched. -/
theorem handleTurn_no_sid (st : Store) (req : AnalyzeRequest) (oc : ClassifierOutcome)
    (nOk : Bool) (now : String) (h : req.sessionId = none) :
    handleTurn st req oc nOk now = ⟨st, .invalid, false⟩ := by
  unfold handleTurn
  rw [h]

/-- A request without `message` is rejected with the store untouched. -/
theorem handleTurn_no_message (st : Store) (req : AnalyzeRequest) (oc : ClassifierOutcome)
    (nOk : Bool) (now : String) (h : req.message = none) :
    handleTurn st req oc nOk now = ⟨st, .invalid, false⟩ := by
  unfold handleTurn
  rw [h]
  cases req.sessionId <;> rfl

/-- A request failing the line-96 truthiness check is rejected with the store
untouched. -/
theorem handleTurn_invalid_of (st : Store) (req : AnalyzeRequest) (oc : ClassifierOutcome)
    (nOk : Bool) (now sid : String) (m : Message)
    (hsid : req.sessionId = some sid) (hm : req.message = some m)
    (hval : (sid.isEmpty || !truthyStr m.text || !truthyStr m.sender) = true) :
    handleTurn st req oc nOk now = ⟨st, .invalid, false⟩ := by
  unfold handleTurn
  rw [hsid, hm]
  dsimp only
  rw [if_pos hval]

/-- Explicit form of a validated turn, with the session resolved to `s0`
(the stored session, or a fresh one seeded from `conversationHistory`). -/
theorem handleTurn_valid_eq (st : Store) (req : AnalyzeRequest) (oc : ClassifierOutcome)
    (nOk : Bool) (now sid : String) (m : Message) (s0 : Session)
    (hsid : req.sessionId = some sid) (hm : req.message = some m)
    (h1 : sid.isEmpty = false) (h2 : truthyStr m.text = true) (h3 : truthyStr m.sender = true)
    (hs0 : s0 = (Store.get st sid).getD (freshSession sid ((req.conversationHistory).getD []))) :
    handleTurn st req oc nOk now =
      match oc with
      | .callError =>
        ⟨Store.set st sid { s0 with history := s0.history ++ [m] }, .serverError, false⟩
      | .parseError =>
        ⟨Store.set st sid { s0 with history := s0.history ++ [m] }, .serverError, false⟩
      | .parsed r =>
        match r.extractedIntelligence with
        | none =>
          ⟨Store.set st sid
              { s0 with
                  history := s0.history ++ [m]
                  scamDetected := s0.scamDetected || r.scamDetected.getD false },
            .serverError, false⟩
        | some ri =>
          match mergeIntel s0.intelligence.raw ri with
          | none =>
            ⟨Store.set st sid
                { s0 with
                    history := s0.history ++ [m]
                    scamDetected := s0.scamDetected || r.scamDetected.getD false },
              .serverError, false⟩
          | some intel =>
            if (s0.scamDetected || r.scamDetected.getD false) && !s0.finalCallbackSent then
              if nOk then
                ⟨Store.set st sid
                    { s0 with
                        history := s0.history ++ [m] ++
                          [⟨some "user", r.agentReply, some now⟩]
                        scamDetected := s0.scamDetected || r.scamDetected.getD false
                        intelligence := intel
                        agentNotes := r.agentNotes
                        finalCallbackSent := true },
                  .ok r.agentReply, true⟩
              else
                ⟨Store.set st sid
                    { s0 with
                        history := s0.history ++ [m] ++
                          [⟨some "user", r.agentReply, some now⟩]
                        scamDetected := s0.scamDetected || r.scamDetected.getD false
                        intelligence := intel
                        agentNotes := r.agentNotes },
                  .ok r.agentReply, true⟩
            else
              ⟨Store.set st sid
                  { s0 with
                      history := s0.history ++ [m] ++
                        [⟨some "user", r.agentReply, some now⟩]
                      scamDetected := s0.scamDetected || r.scamDetected.getD false
                      intelligence := intel
                      agentNotes := r.agentNotes },
                .ok r.agentReply, false⟩ := by
  unfold handleTurn
  rw [hsid, hm]
  dsimp only
  rw [if_neg (by simp [h1, h2, h3])]
  subst hs0
  cases hget : Store.get st sid <;> rfl

/-- C4 (amended): when the classifier call fails or its response is not valid
JSON, the turn returns a processing failure (HTTP 500), the Notifier is not
invoked, and the stored session is exactly the pre-turn session with only the
inbound message appended — `scamDetected`, `intelligence`, `agentNotes`,
`finalCallbackSent` all unchanged, no reply appended.  When the response parses
as JSON but cannot be read as a Classifier Result (its `extractedIntelligence`
absent, or one of its five fields absent, so `mergeIntel` throws), the turn
likewise fails with HTTP 500, no Notifier call, no reply, and unchanged
`intelligence`, `agentNotes` and `finalCallbackSent` — but `scamDetected` has
already been OR-updated with the result's flag (line 159 runs before the
throw). -/
theorem classifier_failure_leaves_state (st : Store) (req : AnalyzeRequest)
    (oc : ClassifierOutcome) (nOk : Bool) (now sid : String) (m : Message)
    (hsid : req.sessionId = some sid) (hm : req.message = some m)
    (h1 : sid.isEmpty = false) (h2 : truthyStr m.text = true) (h3 : truthyStr m.sender = true) :
    let s0 := (Store.get st sid).getD (freshSession sid ((req.conversationHistory).getD []))
    ((oc = .callError ∨ oc = .parseError) →
      (handleTurn st req oc nOk now).response = .serverError ∧
      (handleTurn st req oc nOk now).notifierCalled = false ∧
      Store.get (handleTurn st req oc nOk now).store sid =
        some { s0 with history := s0.history ++ [m] }) ∧
    (∀ r, oc = .parsed r →
      (r.extractedIntelligence = none ∨
        ∃ ri, r.extractedIntelligence = some ri ∧ mergeIntel s0.intelligence.raw ri = none) →
      (handleTurn st req oc nOk now).response = .serverError ∧
      (handleTurn st req oc nOk now).notifierCalled = false ∧
      Store.get (handleTurn st req oc nOk now).store sid =
        some { s0 with
                 history := s0.history ++ [m]
                 scamDetected := s0.scamDetected || r.scamDetected.getD false }) := by
  intro s0
  have hs0 : s0 =
      (Store.get st sid).getD (freshSession sid ((req.conversationHistory).getD [])) := rfl
  have E := handleTurn_valid_eq st req oc nOk now sid m s0 hsid hm h1 h2 h3 hs0
  constructor
  · rintro (rfl | rfl)
    · dsimp only at E
      rw [E]
      exact ⟨rfl, rfl, Store.get_set_self st sid _⟩
    · dsimp only at E
      rw [E]
      exact ⟨rfl, rfl, Store.get_set_self st sid _⟩
  · rintro r rfl hshape
    dsimp only at E
    rcases hshape with hri | ⟨ri, hri, hmi⟩
    · rw [hri] at E
      dsimp only at E
      rw [E]
      exact ⟨rfl, rfl, Store.get_set_self st sid _⟩
    · rw [hri] at E
      dsimp only at E
      rw [hmi] at E
      dsimp only at E
      rw [E]
      exact ⟨rfl, rfl, Store.get_set_self st sid _⟩

/-- Inversion of a turn that returned HTTP 200: the request was valid, the
classifier result parsed with a mergeable intelligence snapshot, the reply is
`result.agentReply`, the Notifier ran exactly when the terminal check fired,
and the stored session is the fully updated one. -/
theorem handleTurn_ok_inv (st : Store) (req : AnalyzeRequest) (oc : ClassifierOutcome)
    (nOk : Bool) (now : String) (reply : Option String)
    (hok : (handleTurn st req oc nOk now).response = .ok reply) :
    ∃ sid m s0 r ri intel,
      req.sessionId = some sid ∧ req.message = some m ∧
      sid.isEmpty = false ∧ truthyStr m.text = true ∧ truthyStr m.sender = true ∧
      s0 = (Store.get st sid).getD (freshSession sid ((req.conversationHistory).getD [])) ∧
      oc = .parsed r ∧ r.extractedIntelligence = some ri ∧
      mergeIntel s0.intelligence.raw ri = some intel ∧
      reply = r.agentReply ∧
      (handleTurn st req oc nOk now).notifierCalled =
        ((s0.scamDetected || r.scamDetected.getD false) && !s0.finalCallbackSent) ∧
      Store.get (handleTurn st req oc nOk now).store sid = some
        { s0 with
            history := s0.history ++ [m] ++ [⟨some "user", r.agentReply, some now⟩]
            scamDetected := s0.scamDetected || r.scamDetected.getD false
            intelligence := intel
            agentNotes := r.agentNotes
            finalCallbackSent := s0.finalCallbackSent ||
              ((s0.scamDetected || r.scamDetected.getD false) && nOk) } := by
  cases hsid : req.sessionId with
  | none =>
    rw [handleTurn_no_sid st req oc nOk now hsid] at hok
    exact absurd hok (by simp)
  | some sid =>
    cases hm : req.message with
    | none =>
      rw [handleTurn_no_message st req oc nOk now hm] at hok
      exact absurd hok (by simp)
    | some m =>
      by_cases hval : (sid.isEmpty || !truthyStr m.text || !truthyStr m.sender) = true
      · rw [handleTurn_invalid_of st req oc nOk now sid m hsid hm hval] at hok
        exact absurd hok (by simp)
      · obtain ⟨h1, h2, h3⟩ : sid.isEmpty = false ∧ truthyStr m.text = true ∧
            truthyStr m.sender = true := by
          revert hval
          cases sid.isEmpty <;> cases truthyStr m.text <;> cases truthyStr m.sender <;> simp
        obtain ⟨s0, hs0⟩ : ∃ s0, s0 =
            (Store.get st sid).getD (freshSession sid ((req.conversationHistory).getD [])) :=
          ⟨_, rfl⟩
        have E := handleTurn_valid_eq st req oc nOk now sid m s0 hsid hm h1 h2 h3 hs0
        cases oc with
        | callError =>
          rw [E] at hok
          exact absurd hok (by simp)
        | parseError =>
          rw [E] at hok
          exact absurd hok (by simp)
        | parsed r =>
          dsimp only at E
          cases hri : r.extractedIntelligence with
          | none =>
            rw [hri] at E
            dsimp only at E
            rw [E] at hok
            exact absurd hok (by simp)
          | some ri =>
            rw [hri] at E
            dsimp only at E
            cases hmi : mergeIntel s0.intelligence.raw ri with
            | none =>
              rw [hmi] at E
              dsimp only at E
              rw [E] at hok
              exact absurd hok (by simp)
            | some intel =>
              rw [hmi] at E
              dsimp only at E
              by_cases hterm :
                  ((s0.scamDetected || r.scamDetected.getD false) && !s0.finalCallbackSent) = true
              · have hsc : (s0.scamDetected || r.scamDetected.getD false) = true :=
                  ((Bool.and_eq_true _ _).mp hterm).1
                have hfb : s0.finalCallbackSent = false := by
                  have h' := ((Bool.and_eq_true _ _).mp hterm).2
                  revert h'
                  cases s0.finalCallbackSent <;> simp
                rw [if_pos hterm] at E
                cases nOk with
                | true =>
                  rw [if_pos rfl] at E
                  rw [E] at hok ⊢
                  dsimp only at hok ⊢
                  refine ⟨sid, m, s0, r, ri, intel, rfl, rfl, h1, h2, h3, hs0, rfl, hri, hmi,
                    ?_, hterm.symm, ?_⟩
                  · injection hok with h
                    exact h.symm
                  · rw [Store.get_set_self]
                    simp [hsc, hfb]
                | false =>
                  rw [if_neg (by simp)] at E
                  rw [E] at hok ⊢
                  dsimp only at hok ⊢
                  refine ⟨sid, m, s0, r, ri, intel, rfl, rfl, h1, h2, h3, hs0, rfl, hri, hmi,
                    ?_, hterm.symm, ?_⟩
                  · injection hok with h
                    exact h.symm
                  · rw [Store.get_set_self]
                    simp [hsc, hfb]
              · rw [if_neg hterm] at E
                rw [E] at hok ⊢
                dsimp only at hok ⊢
                have htermf :
                    ((s0.scamDetected || r.scamDetected.getD false) && !s0.finalCallbackSent)
                      = false := by
                  revert hterm
                  cases ((s0.scamDetected || r.scamDetected.getD false) &&
                    !s0.finalCallbackSent) <;> simp
                refine ⟨sid, m, s0, r, ri, intel, rfl, rfl, h1, h2, h3, hs0, rfl, hri, hmi,
                  ?_, htermf.symm, ?_⟩
                · injection hok with h
                  exact h.symm
                · rw [Store.get_set_self]
                  have hd : (s0.scamDetected || r.scamDetected.getD false) = false ∨
                      s0.finalCallbackSent = true := by
                    revert hterm
                    cases s0.scamDetected <;> cases r.scamDetected.getD false <;>
                      cases s0.finalCallbackSent <;> simp
                  rcases hd with hsc | hfb
                  · simp [hsc]
                  · simp [hfb]

/-- Across any sequence of turns, a session's `scamDetected` and
`finalCallbackSent` flags, once true, stay true. -/
theorem runTurns_flag_persist (ts : List TurnInput) :
    ∀ (st : Store) (sid : String) (s : Session), Store.get st sid = some s →
      (s.scamDetected = true →
        ∃ s', Store.get (runTurns st ts) sid = some s' ∧ s'.scamDetected = true) ∧
      (s.finalCallbackSent = true →
        ∃ s', Store.get (runTurns st ts) sid = some s' ∧ s'.finalCallbackSent = true) := by
  induction ts with
  | nil => exact fun st sid s hget => ⟨fun h => ⟨s, hget, h⟩, fun h => ⟨s, hget, h⟩⟩
  | cons t ts ih =>
    intro st sid s hget
    obtain ⟨s1, hs1, hsc, hfb, _⟩ :=
      handleTurn_mono_at st t.req t.outcome t.notifierOk t.now sid s hget
    exact ⟨fun h => (ih _ sid s1 hs1).1 (hsc h), fun h => (ih _ sid s1 hs1).2 (hfb h)⟩

/-- The Notifier is only ever invoked on a turn that returns HTTP 200. -/
theorem handleTurn_called_inv (st : Store) (req : AnalyzeRequest) (oc : ClassifierOutcome)
    (nOk : Bool) (now : String)
    (hc : (handleTurn st req oc nOk now).notifierCalled = true) :
    ∃ reply, (handleTurn st req oc nOk now).response = .ok reply := by
  cases hsid : req.sessionId with
  | none =>
    rw [handleTurn_no_sid st req oc nOk now hsid] at hc
    exact absurd hc (by simp)
  | some sid =>
    cases hm : req.message with
    | none =>
      rw [handleTurn_no_message st req oc nOk now hm] at hc
      exact absurd hc (by simp)
    | some m =>
      by_cases hval : (sid.isEmpty || !truthyStr m.text || !truthyStr m.sender) = true
      · rw [handleTurn_invalid_of st req oc nOk now sid m hsid hm hval] at hc
        exact absurd hc (by simp)
      · obtain ⟨h1, h2, h3⟩ : sid.isEmpty = false ∧ truthyStr m.text = true ∧
            truthyStr m.sender = true := by
          revert hval
          cases sid.isEmpty <;> cases truthyStr m.text <;> cases truthyStr m.sender <;> simp
        obtain ⟨s0, hs0⟩ : ∃ s0, s0 =
            (Store.get st sid).getD (freshSession sid ((req.conversationHistory).getD [])) :=
          ⟨_, rfl⟩
        have E := handleTurn_valid_eq st req oc nOk now sid m s0 hsid hm h1 h2 h3 hs0
        cases oc with
        | callError =>
          rw [E] at hc
          exact absurd hc (by simp)
        | parseError =>
          rw [E] at hc
          exact absurd hc (by simp)
        | parsed r =>
          dsimp only at E
          cases hri : r.extractedIntelligence with
          | none =>
            rw [hri] at E
            dsimp only at E
            rw [E] at hc
            exact absurd hc (by simp)
          | some ri =>
            rw [hri] at E
            dsimp only at E
            cases hmi : mergeIntel s0.intelligence.raw ri with
            | none =>
              rw [hmi] at E
              dsimp only at E
              rw [E] at hc
              exact absurd hc (by simp)
            | some intel =>
              rw [hmi] at E
              dsimp only at E
              by_cases hterm :
                  ((s0.scamDetected || r.scamDetected.getD false) && !s0.finalCallbackSent) = true
              · rw [if_pos hterm] at E
                cases nOk with
                | true =>
                  rw [if_pos rfl] at E
                  rw [E]
                  exact ⟨r.agentReply, rfl⟩
                | false =>
                  rw [if_neg (by simp)] at E
                  rw [E]
                  exact ⟨r.agentReply, rfl⟩
              · rw [if_neg hterm] at E
                rw [E]
                exact ⟨r.agentReply, rfl⟩

/-- C5: for snapshots with all five fields present, every field of
`mergeIntel A B` is the duplicate-free set union (verbatim string comparison)
of the corresponding fields of `A` and `B`, and re-merging `B` into the result
returns the result unchanged: `merge(merge(A,B),B) = merge(A,B)`. -/
theorem mergeIntel_union_idem (A B : Intelligence) :
    ∃ M, mergeIntel A.raw B.raw = some M ∧
      (M.bankAccounts.Nodup ∧
        ∀ x, x ∈ M.bankAccounts ↔ x ∈ A.bankAccounts ∨ x ∈ B.bankAccounts) ∧
      (M.upiIds.Nodup ∧ ∀ x, x ∈ M.upiIds ↔ x ∈ A.upiIds ∨ x ∈ B.upiIds) ∧
      (M.phishingLinks.Nodup ∧
        ∀ x, x ∈ M.phishingLinks ↔ x ∈ A.phishingLinks ∨ x ∈ B.phishingLinks) ∧
      (M.phoneNumbers.Nodup ∧
        ∀ x, x ∈ M.phoneNumbers ↔ x ∈ A.phoneNumbers ∨ x ∈ B.phoneNumbers) ∧
      (M.suspiciousKeywords.Nodup ∧
        ∀ x, x ∈ M.suspiciousKeywords ↔ x ∈ A.suspiciousKeywords ∨ x ∈ B.suspiciousKeywords) ∧
      mergeIntel M.raw B.raw = some M := by
  have hkey : ∀ a b : List String, setDedup (setDedup (a ++ b) ++ b) = setDedup (a ++ b) := by
    intro a b
    exact setDedup_append_of_subset (setDedup (a ++ b)) b (nodup_setDedup _)
      (fun x hx => mem_setDedup.mpr (List.mem_append.mpr (Or.inr hx)))
  refine ⟨_, mergeIntel_raw A B,
    ⟨nodup_setDedup _, fun x => by rw [mem_setDedup, List.mem_append]⟩,
    ⟨nodup_setDedup _, fun x => by rw [mem_setDedup, List.mem_append]⟩,
    ⟨nodup_setDedup _, fun x => by rw [mem_setDedup, List.mem_append]⟩,
    ⟨nodup_setDedup _, fun x => by rw [mem_setDedup, List.mem_append]⟩,
    ⟨nodup_setDedup _, fun x => by rw [mem_setDedup, List.mem_append]⟩, ?_⟩
  rw [mergeIntel_raw]
  dsimp only
  rw [hkey, hkey, hkey, hkey, hkey]

/-- C3: once a session's `scamDetected` is true it stays true over any further
sequence of turns regardless of classifier outputs, and each successful turn
updates it to the logical OR of the stored flag with the classifier's flag. -/
theorem scam_flag_monotonic (st : Store) (sid : String) (s : Session)
    (hget : Store.get st sid = some s) :
    (∀ ts, s.scamDetected = true →
      ∃ s', Store.get (runTurns st ts) sid = some s' ∧ s'.scamDetected = true) ∧
    (∀ req r nOk now reply, req.sessionId = some sid →
      (handleTurn st req (.parsed r) nOk now).response = .ok reply →
      ∃ s', Store.get (handleTurn st req (.parsed r) nOk now).store sid = some s' ∧
        s'.scamDetected = (s.scamDetected || r.scamDetected.getD false)) := by
  constructor
  · intro ts h
    exact (runTurns_flag_persist ts st sid s hget).1 h
  · intro req r nOk now reply hsid hok
    obtain ⟨sid', m, s0, r', ri, intel, hsid', hm, _, _, _, hs0, hoc, hri, hmi, hrep, hcalled,
      hstore⟩ := handleTurn_ok_inv st req (.parsed r) nOk now reply hok
    injection hoc with hr
    subst hr
    rw [hsid] at hsid'
    injection hsid' with hs
    subst hs
    rw [hget] at hs0
    simp only [Option.getD_some] at hs0
    subst hs0
    exact ⟨_, hstore, rfl⟩

/-- C1 (amended): `sendFinalCallback` sets `finalCallbackSent` only when the
outbound call succeeds. A turn that invoked the Notifier with a successful
outcome leaves the flag true; a session whose flag is already true never
invokes the Notifier again and keeps the flag over any later turns; a failed
Notifier call leaves the flag false (so the attempt is retried on later scam
turns, not at most once). -/
theorem finalCallback_attempt_semantics (st : Store) (req : AnalyzeRequest)
    (oc : ClassifierOutcome) (nOk : Bool) (now sid : String) :
    ((handleTurn st req oc nOk now).notifierCalled = true → nOk = true →
      req.sessionId = some sid →
      ∃ s', Store.get (handleTurn st req oc nOk now).store sid = some s' ∧
        s'.finalCallbackSent = true) ∧
    (∀ s, Store.get st sid = some s → s.finalCallbackSent = true →
      (req.sessionId = some sid → (handleTurn st req oc nOk now).notifierCalled = false) ∧
      (∀ ts, ∃ s', Store.get (runTurns st ts) sid = some s' ∧ s'.finalCallbackSent = true)) ∧
    (∀ s, Store.get st sid = some s → s.finalCallbackSent = false → nOk = false →
      ∃ s', Store.get (handleTurn st req oc nOk now).store sid = some s' ∧
        s'.finalCallbackSent = false) := by
  refine ⟨?_, ?_, ?_⟩
  · intro hcall hnok hsid
    obtain ⟨reply, hok⟩ := handleTurn_called_inv st req oc nOk now hcall
    obtain ⟨sid', m, s0, r, ri, intel, hsid', hm, _, _, _, hs0, hoc, hri, hmi, hrep, hcalled,
      hstore⟩ := handleTurn_ok_inv st req oc nOk now reply hok
    rw [hsid] at hsid'
    injection hsid' with hs
    subst hs
    refine ⟨_, hstore, ?_⟩
    rw [hcall] at hcalled
    subst hnok
    have hsc : (s0.scamDetected || r.scamDetected.getD false) = true := by
      cases hq : (s0.scamDetected || r.scamDetected.getD false) <;> simp_all
    simp [hsc]
  · intro s hget hfb
    constructor
    · intro hsid
      cases hcall : (handleTurn st req oc nOk now).notifierCalled with
      | false => rfl
      | true =>
        exfalso
        obtain ⟨reply, hok⟩ := handleTurn_called_inv st req oc nOk now hcall
        obtain ⟨sid', m, s0, r, ri, intel, hsid', hm, _, _, _, hs0, hoc, hri, hmi, hrep, hcalled,
          hstore⟩ := handleTurn_ok_inv st req oc nOk now reply hok
        rw [hsid] at hsid'
        injection hsid' with hs
        subst hs
        rw [hget] at hs0
        simp only [Option.getD_some] at hs0
        subst hs0
        rw [hcall] at hcalled
        simp [hfb] at hcalled
    · intro ts
      exact (runTurns_flag_persist ts st sid s hget).2 hfb
  · intro s hget hfbf hnok
    subst hnok
    obtain ⟨s', hs', _, _, hkeep⟩ := handleTurn_mono_at st req oc false now sid s hget
    exact ⟨s', hs', by rw [hkeep rfl, hfbf]⟩

/-- C8 (amended): every successful turn appends as last history entry the
synthesized message `{sender: "user", text: result.agentReply, timestamp: now}`
— the sender is the fixed literal `"user"`, not an agent-specific marker. -/
theorem reply_append_shape (st : Store) (req : AnalyzeRequest) (oc : ClassifierOutcome)
    (nOk : Bool) (now : String) (reply : Option String)
    (hok : (handleTurn st req oc nOk now).response = .ok reply) :
    ∃ r sid s', oc = .parsed r ∧ reply = r.agentReply ∧ req.sessionId = some sid ∧
      Store.get (handleTurn st req oc nOk now).store sid = some s' ∧
      ∃ h0, s'.history = h0 ++ [⟨some "user", r.agentReply, some now⟩] := by
  obtain ⟨sid, m, s0, r, ri, intel, hsid, hm, _, _, _, hs0, hoc, hri, hmi, hrep, hcalled,
    hstore⟩ := handleTurn_ok_inv st req oc nOk now reply hok
  exact ⟨r, sid, _, hoc, hrep, hsid, hstore, s0.history ++ [m], rfl⟩

/-- C9 (amended): every successful turn overwrites the session's `agentNotes`
with `result.agentNotes` verbatim (last-write-wins); an absent value is stored
as absent, not as the empty string. -/
theorem agentNotes_lastWrite (st : Store) (req : AnalyzeRequest) (oc : ClassifierOutcome)
    (nOk : Bool) (now : String) (reply : Option String)
    (hok : (handleTurn st req oc nOk now).response = .ok reply) :
    ∃ r sid s', oc = .parsed r ∧ req.sessionId = some sid ∧
      Store.get (handleTurn st req oc nOk now).store sid = some s' ∧
      s'.agentNotes = r.agentNotes := by
  obtain ⟨sid, m, s0, r, ri, intel, hsid, hm, _, _, _, hs0, hoc, hri, hmi, hrep, hcalled,
    hstore⟩ := handleTurn_ok_inv st req oc nOk now reply hok
  exact ⟨r, sid, _, hoc, hsid, hstore, rfl⟩

/-- C7: session creation is idempotent per key: when the `sessionId` is already
stored, the turn's outcome is independent of the supplied
`conversationHistory`; on the first turn of an unseen `sessionId` the session
history is seeded from the supplied `conversationHistory` followed by the
inbound message. -/
theorem session_creation_idempotent (st : Store) (req : AnalyzeRequest)
    (oc : ClassifierOutcome) (nOk : Bool) (now sid : String)
    (hsid : req.sessionId = some sid) :
    ((Store.get st sid).isSome →
      ∀ ch', handleTurn st { req with conversationHistory := ch' } oc nOk now =
        handleTurn st req oc nOk now) ∧
    (Store.get st sid = none → ∀ m, req.message = some m → sid.isEmpty = false →
      truthyStr m.text = true → truthyStr m.sender = true →
      ∃ s', Store.get (handleTurn st req oc nOk now).store sid = some s' ∧
        ∃ rest, s'.history = (req.conversationHistory).getD [] ++ [m] ++ rest) := by
  constructor
  · intro hsome ch'
    obtain ⟨s, hs⟩ := Option.isSome_iff_exists.mp hsome
    cases hm : req.message with
    | none =>
      rw [handleTurn_no_message st ⟨req.sessionId, none, ch'⟩ oc nOk now rfl,
        handleTurn_no_message st req oc nOk now hm]
    | some m =>
      by_cases hval : (sid.isEmpty || !truthyStr m.text || !truthyStr m.sender) = true
      · rw [handleTurn_invalid_of st ⟨req.sessionId, some m, ch'⟩ oc nOk now sid m hsid rfl hval,
          handleTurn_invalid_of st req oc nOk now sid m hsid hm hval]
      · obtain ⟨h1, h2, h3⟩ : sid.isEmpty = false ∧ truthyStr m.text = true ∧
            truthyStr m.sender = true := by
          revert hval
          cases sid.isEmpty <;> cases truthyStr m.text <;> cases truthyStr m.sender <;> simp
        rw [handleTurn_valid_eq st ⟨req.sessionId, some m, ch'⟩ oc nOk now sid m s hsid rfl
            h1 h2 h3 (by rw [hs]; rfl),
          handleTurn_valid_eq st req oc nOk now sid m s hsid hm h1 h2 h3 (by rw [hs]; rfl)]
  · intro hnone m hm h1 h2 h3
    have E := handleTurn_valid_eq st req oc nOk now sid m
      (freshSession sid ((req.conversationHistory).getD [])) hsid hm h1 h2 h3
      (by rw [hnone]; rfl)
    rw [E]
    cases oc with
    | callError =>
      exact ⟨_, Store.get_set_self st sid _, [], by simp [freshSession]⟩
    | parseError =>
      exact ⟨_, Store.get_set_self st sid _, [], by simp [freshSession]⟩
    | parsed r =>
      dsimp only
      cases hri : r.extractedIntelligence with
      | none =>
        dsimp only
        exact ⟨_, Store.get_set_self st sid _, [], by simp [freshSession]⟩
      | some ri =>
        dsimp only
        cases hmi : mergeIntel (freshSession sid ((req.conversationHistory).getD [])).intelligence.raw ri with
        | none =>
          dsimp only
          exact ⟨_, Store.get_set_self st sid _, [], by simp [freshSession]⟩
        | some intel =>
          dsimp only
          by_cases hterm :
              (((freshSession sid ((req.conversationHistory).getD [])).scamDetected ||
                r.scamDetected.getD false) &&
                !(freshSession sid ((req.conversationHistory).getD [])).finalCallbackSent) = true
          · rw [if_pos hterm]
            cases nOk with
            | true =>
              rw [if_pos rfl]
              exact ⟨_, Store.get_set_self st sid _,
                [⟨some "user", r.agentReply, some now⟩], by simp [freshSession]⟩
            | false =>
              rw [if_neg (by simp)]
              exact ⟨_, Store.get_set_self st sid _,
                [⟨some "user", r.agentReply, some now⟩], by simp [freshSession]⟩
          · rw [if_neg hterm]
            exact ⟨_, Store.get_set_self st sid _,
              [⟨some "user", r.agentReply, some now⟩], by simp [freshSession]⟩

/-- C1: counterexample. With the outbound call failing, the first scam turn
invokes the Notifier yet `finalCallbackSent` remains false, and the next turn
of the same session invokes the Notifier again — the flag is not set
"regardless of the Notifier call's outcome" and the attempt is not unique. -/
theorem notifier_retried_after_failed_attempt :
    (handleTurn [] exReq (.parsed exScamResult) false "T1").notifierCalled = true ∧
    ((Store.get (handleTurn [] exReq (.parsed exScamResult) false "T1").store "s1").map
      Session.finalCallbackSent) = some false ∧
    (handleTurn (handleTurn [] exReq (.parsed exScamResult) false "T1").store exReq
      (.parsed exScamResult) false "T2").notifierCalled = true := by
  decide

/-- C4: counterexample. A classifier response that is valid JSON but lacks
`extractedIntelligence` (so it cannot be read as a Classifier Result): the
stored session had `scamDetected = false` before the turn, the turn fails with
a processing failure and appends no reply — but afterwards `scamDetected` is
`true`, refuting "scamDetected … unchanged from their values before the turn". -/
theorem classifier_shape_failure_updates_scam :
    Store.get [("s1", freshSession "s1" [])] "s1" = some (freshSession "s1" []) ∧
    (freshSession "s1" []).scamDetected = false ∧
    (handleTurn [("s1", freshSession "s1" [])] exReq (.parsed exBadShapeResult) true "T").response
      = .serverError ∧
    ((Store.get (handleTurn [("s1", freshSession "s1" [])] exReq (.parsed exBadShapeResult)
      true "T").store "s1").map Session.scamDetected) = some true ∧
    ((Store.get (handleTurn [("s1", freshSession "s1" [])] exReq (.parsed exBadShapeResult)
      true "T").store "s1").map Session.history) = some [exMsg] := by
  decide

/-- C2: counterexample. Merging a snapshot whose `bankAccounts` field is absent
throws (spreading `undefined`), embedded as `none` — merge does not succeed
treating the absent field as the empty set. -/
theorem mergeIntel_absent_field_fails :
    mergeIntel ⟨none, some [], some [], some [], some []⟩ emptyRaw = none := rfl

/-- C8: counterexample. When the external inbound sender is the string `"user"`,
the synthesized reply of a successful turn carries the very same sender — the
reply's sender marker is not distinct from external senders. -/
theorem reply_sender_matches_external_sender :
    (handleTurn [] exUserReq (.parsed exCalmResult) true "T").response = .ok (some "ok") ∧
    ((Store.get (handleTurn [] exUserReq (.parsed exCalmResult) true "T").store "s1").map
      (fun s => s.history.map Message.sender)) = some [some "user", some "user"] := by
  decide

/-- C9: counterexample. A successful turn whose classifier result lacks
`agentNotes` stores `undefined` (`none`), not the empty string `""`. -/
theorem agentNotes_absent_stored_as_absent :
    (handleTurn [] exReq (.parsed exNoNotesResult) true "T").response = .ok (some "ok") ∧
    ((Store.get (handleTurn [] exReq (.parsed exNoNotesResult) true "T").store "s1").map
      Session.agentNotes) = some none := by
  decide

/-- C3: witness at a concrete flagged session and a concrete later turn. -/
theorem scam_flag_monotonic_witness :
    ∃ s', Store.get
      (runTurns [("s1", exScamSession)] [⟨exReq, .parsed exCalmResult, true, "T"⟩]) "s1" =
        some s' ∧ s'.scamDetected = true :=
  (scam_flag_monotonic [("s1", exScamSession)] "s1" exScamSession (by decide)).1
    [⟨exReq, .parsed exCalmResult, true, "T"⟩] (by decide)

/-- C4: witness — a concrete failing classifier call on a fresh session, and a
concrete wrong-shape parsed response whose line-159 flag update survives. -/
theorem classifier_failure_leaves_state_witness :
    ((handleTurn [] exReq .callError true "T").response = .serverError ∧
      (handleTurn [] exReq .callError true "T").notifierCalled = false ∧
      Store.get (handleTurn [] exReq .callError true "T").store "s1" =
        some { freshSession "s1" [] with history := [exMsg] }) ∧
    ((handleTurn [] exReq (.parsed exBadShapeResult) true "T").response = .serverError ∧
      (handleTurn [] exReq (.parsed exBadShapeResult) true "T").notifierCalled = false ∧
      Store.get (handleTurn [] exReq (.parsed exBadShapeResult) true "T").store "s1" =
        some { freshSession "s1" [] with history := [exMsg], scamDetected := true }) :=
  ⟨(classifier_failure_leaves_state [] exReq .callError true "T" "s1" exMsg rfl rfl
      (by decide) (by decide) (by decide)).1 (Or.inl rfl),
    (classifier_failure_leaves_state [] exReq (.parsed exBadShapeResult) true "T" "s1" exMsg
      rfl rfl (by decide) (by decide) (by decide)).2 exBadShapeResult rfl (Or.inl rfl)⟩

/-- C6: witness at a concrete request with no `sessionId`. -/
theorem validation_rejects_missing_fields_witness :
    handleTurn [] ⟨none, some exMsg, none⟩ .callError true "T" = ⟨[], .invalid, false⟩ :=
  validation_rejects_missing_fields [] ⟨none, some exMsg, none⟩ .callError true "T" (Or.inl rfl)

/-- C10: witness at a concrete request with an empty `sessionId`. -/
theorem validation_rejects_empty_fields_witness :
    handleTurn [] ⟨some "", some exMsg, none⟩ .callError true "T" = ⟨[], .invalid, false⟩ :=
  validation_rejects_empty_fields [] ⟨some "", some exMsg, none⟩ .callError true "T" (Or.inl rfl)

/-- C7: witness — a differing `conversationHistory` on an existing session
leaves the turn's outcome unchanged. -/
theorem session_creation_idempotent_witness :
    handleTurn [("s1", exScamSession)] ⟨some "s1", some exMsg, some [exMsg]⟩
        (.parsed exCalmResult) true "T" =
      handleTurn [("s1", exScamSession)] exReq (.parsed exCalmResult) true "T" :=
  (session_creation_idempotent [("s1", exScamSession)] exReq (.parsed exCalmResult) true "T"
    "s1" rfl).1 (by decide) (some [exMsg])

/-- C1: witness — a successful Notifier call on a concrete scam turn marks the
session. -/
theorem finalCallback_attempt_semantics_witness :
    ∃ s', Store.get (handleTurn [] exReq (.parsed exScamResult) true "T").store "s1" =
      some s' ∧ s'.finalCallbackSent = true :=
  (finalCallback_attempt_semantics [] exReq (.parsed exScamResult) true "T" "s1").1
    (by decide) rfl rfl

/-- C8: witness at a concrete successful turn. -/
theorem reply_append_shape_witness :
    ∃ r sid s', ClassifierOutcome.parsed exCalmResult = .parsed r ∧
      (some "ok" : Option String) = r.agentReply ∧ exReq.sessionId = some sid ∧
      Store.get (handleTurn [] exReq (.parsed exCalmResult) true "T").store sid = some s' ∧
      ∃ h0, s'.history = h0 ++ [⟨some "user", r.agentReply, some "T"⟩] :=
  reply_append_shape [] exReq (.parsed exCalmResult) true "T" (some "ok") (by decide)

/-- C9: witness at a concrete successful turn without `agentNotes`. -/
theorem agentNotes_lastWrite_witness :
    ∃ r sid s', ClassifierOutcome.parsed exNoNotesResult = .parsed r ∧
      exReq.sessionId = some sid ∧
      Store.get (handleTurn [] exReq (.parsed exNoNotesResult) true "T").store sid = some s' ∧
      s'.agentNotes = r.agentNotes :=
  agentNotes_lastWrite [] exReq (.parsed exNoNotesResult) true "T" (some "ok") (by decide)
